import Mathlib

/-!
Verification development for the income-expense-gap-analysis pipeline.

The definitions below are a shallow embedding of the two pipeline scripts
(acquire_data.py and process_data.py).  Tabular data is modelled as Lean
lists of rows or columns; pandas floating cells are modelled by the type
PFloat below, which distinguishes NaN (the pandas notion of a null cell),
the two infinities, and finite rational values.  Machine floats are
replaced by exact rationals; the special-value propagation rules of the
arithmetic follow IEEE semantics for the operations the scripts use.
-/

namespace IncomeExpense

/-- A pandas floating-point cell: NaN (null), plus or minus infinity, or a
finite value (modelled as an exact rational). -/
inductive PFloat where
  | nan : PFloat
  | inf : PFloat
  | ninf : PFloat
  | fin : ℚ → PFloat
deriving DecidableEq

/-- IEEE-style multiplication on pandas cells. -/
def PFloat.mul : PFloat → PFloat → PFloat
  | .nan, _ => .nan
  | _, .nan => .nan
  | .inf, .inf => .inf
  | .inf, .ninf => .ninf
  | .ninf, .inf => .ninf
  | .ninf, .ninf => .inf
  | .inf, .fin q => if 0 < q then .inf else if q < 0 then .ninf else .nan
  | .fin q, .inf => if 0 < q then .inf else if q < 0 then .ninf else .nan
  | .ninf, .fin q => if 0 < q then .ninf else if q < 0 then .inf else .nan
  | .fin q, .ninf => if 0 < q then .ninf else if q < 0 then .inf else .nan
  | .fin a, .fin b => .fin (a * b)

/-- IEEE-style subtraction on pandas cells. -/
def PFloat.sub : PFloat → PFloat → PFloat
  | .nan, _ => .nan
  | _, .nan => .nan
  | .inf, .inf => .nan
  | .inf, .ninf => .inf
  | .inf, .fin _ => .inf
  | .ninf, .ninf => .nan
  | .ninf, .inf => .ninf
  | .ninf, .fin _ => .ninf
  | .fin _, .inf => .ninf
  | .fin _, .ninf => .inf
  | .fin a, .fin b => .fin (a - b)

/-- IEEE-style division on pandas cells.  Rationals carry no signed zero,
so a zero divisor is treated as positive zero, exactly as numpy produces
inf for x/0 with x positive, -inf for x negative and nan for 0/0. -/
def PFloat.div : PFloat → PFloat → PFloat
  | .nan, _ => .nan
  | _, .nan => .nan
  | .inf, .inf => .nan
  | .inf, .ninf => .nan
  | .ninf, .inf => .nan
  | .ninf, .ninf => .nan
  | .inf, .fin q => if 0 ≤ q then .inf else .ninf
  | .ninf, .fin q => if 0 ≤ q then .ninf else .inf
  | .fin _, .inf => .fin 0
  | .fin _, .ninf => .fin 0
  | .fin a, .fin b =>
      if b = 0 then (if 0 < a then .inf else if a < 0 then .ninf else .nan)
      else .fin (a / b)

/-- pd.to_numeric with errors set to coerce: a raw cell either parses to a
rational or becomes NaN.  Raw cells are modelled as Option rationals
(none stands for a missing or non-convertible value). -/
def toNumeric : Option ℚ → PFloat
  | none => .nan
  | some q => .fin q

/-- A raw Census survey row (census_metros_acs.csv / census_states_acs.csv):
region name plus the three measure cells as read from the file. -/
structure RawSurveyRow where
  metro_name : String
  median_household_income : Option ℚ
  total_population : Option ℚ
  median_gross_rent : Option ℚ
deriving DecidableEq

/-- A processed survey row as written by process_census_data: the coerced
measures and the derived rent-to-income ratio column. -/
structure ProcSurveyRow where
  metro_name : String
  median_household_income : PFloat
  total_population : PFloat
  median_gross_rent : PFloat
  rent_to_income_ratio : PFloat
deriving DecidableEq

/-- One row of process_census_data (process_data.py lines 88-113): coerce
the three measures with to_numeric, then set
rent_to_income_ratio = (median_gross_rent * 12) / median_household_income
in pandas float arithmetic. -/
def processSurveyRow (r : RawSurveyRow) : ProcSurveyRow :=
  let inc := toNumeric r.median_household_income
  let pop := toNumeric r.total_population
  let rent := toNumeric r.median_gross_rent
  { metro_name := r.metro_name
    median_household_income := inc
    total_population := pop
    median_gross_rent := rent
    rent_to_income_ratio := PFloat.div (PFloat.mul rent (.fin 12)) inc }

/-- process_census_data applied to a whole survey table (the same code
path runs for the state and the metro variant). -/
def process_census_data (rows : List RawSurveyRow) : List ProcSurveyRow :=
  rows.map processSurveyRow

/-- The value the rent-to-income column actually takes, written out case
by case from the pandas arithmetic: null income gives null; zero income
gives null when the rent is null or zero and a signed infinity otherwise;
a nonzero income gives null for null rent and the exact quotient for a
finite rent. -/
def ratioSpec (income rent : Option ℚ) : PFloat :=
  match income with
  | none => .nan
  | some a =>
      match rent with
      | none => .nan
      | some b =>
          if a = 0 then
            (if 0 < b * 12 then .inf else if b * 12 < 0 then .ninf else .nan)
          else .fin (b * 12 / a)

/-- One long-format expenditure observation (bls_consumer_expenditure.csv):
a category, a year and a value. -/
structure SeriesRecord where
  category : String
  year : ℤ
  value : ℚ
deriving DecidableEq

/-- The (category, year) key column pair of the expenditure table. -/
def seriesKeys (l : List SeriesRecord) : List (String × ℤ) :=
  l.map fun r => (r.category, r.year)

/-- Insertion of a year into an ascending list, used to model the sorted
index that pandas pivot produces. -/
def insertLE (y : ℤ) : List ℤ → List ℤ
  | [] => [y]
  | x :: xs => if y ≤ x then y :: x :: xs else x :: insertLE y xs

/-- Ascending sort of the year column. -/
def sortYears (l : List ℤ) : List ℤ := l.foldr insertLE []

/-- One cell of the pivoted table: the value of the first record with the
given category and year, none when no such record exists (pandas fills
such cells with NaN). -/
def pivotCell (l : List SeriesRecord) (c : String) (y : ℤ) : Option ℚ :=
  (l.find? fun r => r.category == c && r.year == y).map (·.value)

/-- The wide one-row-per-year table produced by df.pivot in
process_bls_expenditure_data (process_data.py line 46): a sorted year
index, one column per category, and the cell contents. -/
structure WideTable where
  years : List ℤ
  cats : List String
  cell : String → ℤ → Option ℚ

/-- df.pivot on the expenditure records: rows are the distinct years in
ascending order, columns the distinct categories. -/
def pivot (l : List SeriesRecord) : WideTable :=
  { years := sortYears (l.map (·.year)).dedup
    cats := (l.map (·.category)).dedup
    cell := pivotCell l }

/-- Melting a wide table back to long form: one (category, year, cell)
triple per column and row, null cells included, as pandas melt emits. -/
def melt (w : WideTable) : List (String × ℤ × Option ℚ) :=
  w.cats.flatMap fun c => w.years.map fun y => (c, y, w.cell c y)

/-- A wide-table column as a list of pandas cells in year order. -/
def categoryColumn (w : WideTable) (c : String) : List PFloat :=
  w.years.map fun y => toNumeric (w.cell c y)

/-- The recursive core of pandas pct_change with its default pad fill:
prev carries the forward-filled previous value (NaN before the first
row), and each output entry is cur / prev - 1 where cur is the current
value with nulls replaced by prev.  The result is already scaled by 100
as on process_data.py line 57. -/
def pctSeries : PFloat → List PFloat → List PFloat
  | _, [] => []
  | prev, x :: xs =>
      let cur := if x = .nan then prev else x
      PFloat.mul (PFloat.sub (PFloat.div cur prev) (.fin 1)) (.fin 100) ::
        pctSeries cur xs

/-- The derived percent-change column pct_change() * 100 of
process_bls_expenditure_data (process_data.py lines 54-57). -/
def pctChangeTimes100 (l : List PFloat) : List PFloat := pctSeries .nan l

/-- The percent-change column the normalizer appends for category c. -/
def pctColumn (w : WideTable) (c : String) : List PFloat :=
  pctChangeTimes100 (categoryColumn w c)

/-- process_bls_expenditure_data (process_data.py lines 38-71): none when
the raw file is absent; otherwise df.pivot succeeds exactly when the
(category, year) keys carry no duplicate, and a duplicate key makes
pandas raise, which the surrounding except turns into a None return with
no output file written. -/
def process_bls_expenditure_data (raw : Option (List SeriesRecord)) :
    Option WideTable :=
  match raw with
  | none => none
  | some l => if (seriesKeys l).Nodup then some (pivot l) else none

/-- Decides whether a character is in the regex class A-Z. -/
def upperAZ (c : Char) : Bool := 'A' ≤ c && c ≤ 'Z'

/-- Decides whether a character list matches the whole regex
[A-Z]\x7b2\x7d(?:-[A-Z]\x7b2\x7d)* used for trailing state codes. -/
def stateSeq : List Char → Bool
  | [a, b] => upperAZ a && upperAZ b
  | a :: b :: '-' :: rest => upperAZ a && upperAZ b && stateSeq rest
  | _ => false

/-- Character-level form of the state-suffix strip: drop everything from
the first comma that is followed by a space and a state-code sequence
reaching the end of the string, as re.sub does with the anchored pattern
used on process_data.py lines 275-278. -/
def cleanChars : List Char → List Char
  | [] => []
  | c :: rest =>
      if c == ',' && (match rest with | ' ' :: r => stateSeq r | _ => false)
      then []
      else c :: cleanChars rest

/-- Metro-name normalization: strip a trailing state-code suffix such as
a comma followed by TX or NY-NJ-PA. -/
def cleanMetroName (s : String) : String := String.mk (cleanChars s.data)

/-- A synthetic migration edge (synthetic_migration_data.csv). -/
structure MigrationEdge where
  year : ℤ
  origin_metro : String
  destination_metro : String
  num_migrants : ℤ
deriving DecidableEq

/-- Substring test: does the needle occur inside the haystack (the Python
needle in haystack operator)? -/
def containsSub (needle : List Char) : List Char → Bool
  | [] => needle.isEmpty
  | c :: t => needle.isPrefixOf (c :: t) || containsSub needle t

/-- Python substring containment on strings. -/
def strContains (s sub : String) : Bool := containsSub sub.data s.data

/-- The five origin metros of get_migration_data. -/
def outflow_metros : List String :=
  ["New York-Newark-Jersey City, NY-NJ-PA",
   "Los Angeles-Long Beach-Anaheim, CA",
   "Chicago-Naperville-Elgin, IL-IN-WI",
   "San Francisco-Oakland-Berkeley, CA",
   "Boston-Cambridge-Newton, MA-NH"]

/-- The ten destination metros of get_migration_data. -/
def inflow_metros : List String :=
  ["Austin-Round Rock-Georgetown, TX",
   "Phoenix-Mesa-Chandler, AZ",
   "Nashville-Davidson--Murfreesboro--Franklin, TN",
   "Raleigh-Cary, NC",
   "Tampa-St. Petersburg-Clearwater, FL",
   "Dallas-Fort Worth-Arlington, TX",
   "Charlotte-Concord-Gastonia, NC-SC",
   "Jacksonville, FL",
   "Salt Lake City, UT",
   "Denver-Aurora-Lakewood, CO"]

/-- Base outflow population by origin size class
(acquire_data.py lines 273-283). -/
def baseFor (origin : String) : ℤ :=
  if strContains origin "New York" then 120000
  else if strContains origin "Los Angeles" then 100000
  else if strContains origin "Chicago" then 80000
  else if strContains origin "San Francisco" then 70000
  else 50000

/-- Base destination proportion (acquire_data.py lines 290-298). -/
def propFor (dest : String) : ℚ :=
  if dest = "Austin-Round Rock-Georgetown, TX" then 18 / 100
  else if dest = "Phoenix-Mesa-Chandler, AZ"
       ∨ dest = "Tampa-St. Petersburg-Clearwater, FL" then 15 / 100
  else if dest = "Raleigh-Cary, NC"
       ∨ dest = "Dallas-Fort Worth-Arlington, TX" then 12 / 100
  else 8 / 100

/-- Python int() truncation toward zero on a rational. -/
def intTrunc (q : ℚ) : ℤ := q.num.tdiv q.den

/-- get_migration_data (acquire_data.py lines 261-313).  The seeded numpy
generator is modelled by the stream normal of the successive values the
two np.random.normal calls return; the k-th value drawn by the code is
normal k.  The code draws, for each of the five years and each of the
five origins in order, first the outflow multiplier and then one
proportion multiplier per destination, giving eleven draws per
(year, origin) pair. -/
def get_migration_data (normal : ℕ → ℚ) : List MigrationEdge :=
  (List.range 5).flatMap fun yi =>
    outflow_metros.enum.flatMap fun oi_origin =>
      let origin := oi_origin.2
      let year : ℤ := 2018 + (yi : ℤ)
      let outflow_factor : ℚ := 1 + (15 / 100) * (yi : ℚ)
      let k := (yi * 5 + oi_origin.1) * 11
      let outflow : ℤ :=
        intTrunc ((baseFor origin : ℚ) * outflow_factor * normal k)
      inflow_metros.enum.map fun dj_dest =>
        let prop : ℚ := propFor dj_dest.2 * normal (k + 1 + dj_dest.1)
        { year := year
          origin_metro := origin
          destination_metro := dj_dest.2
          num_migrants := max (intTrunc ((outflow : ℚ) * prop)) 0 }

/-- One row of the processed inflow view (processed_migration_inflow.csv):
a destination metro, a year, and the summed migrant count. -/
structure InflowRow where
  destination_metro : String
  year : ℤ
  total_inflow : ℤ
deriving DecidableEq

/-- One row of the processed outflow view. -/
structure OutflowRow where
  origin_metro : String
  year : ℤ
  total_outflow : ℤ
deriving DecidableEq

/-- groupby(destination_metro, year).sum on the migration edges
(process_data.py lines 207-208): one row per distinct key pair, carrying
the sum of num_migrants over the edges with that key. -/
def process_migration_inflow (l : List MigrationEdge) : List InflowRow :=
  ((l.map fun e => (e.destination_metro, e.year)).dedup).map fun k =>
    { destination_metro := k.1
      year := k.2
      total_inflow :=
        ((l.filter fun e =>
            e.destination_metro == k.1 && e.year == k.2).map
          (·.num_migrants)).sum }

/-- groupby(origin_metro, year).sum on the migration edges
(process_data.py lines 211-212). -/
def process_migration_outflow (l : List MigrationEdge) : List OutflowRow :=
  ((l.map fun e => (e.origin_metro, e.year)).dedup).map fun k =>
    { origin_metro := k.1
      year := k.2
      total_outflow :=
        ((l.filter fun e =>
            e.origin_metro == k.1 && e.year == k.2).map
          (·.num_migrants)).sum }

/-- One row of the combined analysis table: the metro survey row, the
stamped year, and the attached inflow total. -/
structure CombinedRow where
  survey : ProcSurveyRow
  year : ℤ
  total_inflow : ℤ
deriving DecidableEq

/-- The year stamped onto every metro survey row: the maximum of the
processed expenditure year column (process_data.py line 269); the
empty-column case is given a default. -/
def stampYear (blsYears : List ℤ) : ℤ := (blsYears.max?).getD 0

/-- The inflow rows matching one metro survey row: equality of cleaned
metro names together with equality of years, the join condition of the
pd.merge call (process_data.py lines 282-288). -/
def matchingInflow (inflow : List InflowRow) (y : ℤ) (m : ProcSurveyRow) :
    List InflowRow :=
  inflow.filter fun r =>
    cleanMetroName r.destination_metro == cleanMetroName m.metro_name &&
      r.year == y

/-- The block of output rows a left merge produces for one survey row:
one row per matching inflow row, or a single row whose total_inflow is
the NaN that fillna(0) then turns into zero (process_data.py line 291). -/
def leftJoinRow (inflow : List InflowRow) (y : ℤ) (m : ProcSurveyRow) :
    List CombinedRow :=
  let ms := matchingInflow inflow y m
  if ms.isEmpty then [{ survey := m, year := y, total_inflow := 0 }]
  else ms.map fun r => { survey := m, year := y, total_inflow := r.total_inflow }

/-- The merge step of combine_data_for_analysis (process_data.py lines
269-291): stamp the year, clean both name columns, left-join the survey
rows with the inflow view, and zero-fill the unmatched rows. -/
def combine_data_for_analysis (blsYears : List ℤ)
    (metros : List ProcSurveyRow) (inflow : List InflowRow) :
    List CombinedRow :=
  metros.flatMap (leftJoinRow inflow (stampYear blsYears))

/-- The file-availability gate of combine_data_for_analysis
(process_data.py lines 253-261): each input is none when its processed
file is missing; if any is missing the function logs one fixed error
line and returns no table, otherwise it merges and logs the save. -/
def combine_pipeline (bls : Option (List ℤ))
    (metros : Option (List ProcSurveyRow))
    (inflow : Option (List InflowRow)) :
    Option (List CombinedRow) × List String :=
  match bls, metros, inflow with
  | some b, some m, some i =>
      (some (combine_data_for_analysis b m i),
       ["Combined data for analysis saved"])
  | _, _, _ => (none, ["Some required processed data files are missing"])

/-- A HUD rent dataframe, column-major: each column is a name together
with its cells.  The identifier columns carry no load in any claim, so
all cells share the pandas cell type. -/
def HudDf : Type := List (String × List PFloat)

instance : DecidableEq HudDf := inferInstanceAs (DecidableEq (List (String × List PFloat)))

/-- The fixed allow-list of process_hud_rent_data
(process_data.py lines 154-155). -/
def hud_cols_to_keep : List String :=
  ["area_name", "state", "county_code", "fmr_0", "fmr_1", "fmr_2", "fmr_3", "fmr_4"]

/-- Row-wise mean across the rent columns, skipping null cells as the
pandas mean does; all-null rows give a null cell. -/
def rowMean (cols : List (List PFloat)) (i : ℕ) : PFloat :=
  let vals := cols.filterMap fun col =>
    match col.getD i PFloat.nan with
    | .fin q => some q
    | _ => none
  match vals with
  | [] => .nan
  | _ => .fin (vals.sum / (vals.length : ℚ))

/-- The guarded column-selection block of process_hud_rent_data
(process_data.py lines 152-174): keep only allow-listed columns that
exist, and when any fmr column is present append the avg_rent column of
row-wise means over the fmr columns. -/
def hudSelect (df : HudDf) : Option HudDf :=
  let keep := hud_cols_to_keep.filter fun c => (df.map Prod.fst).contains c
  let proj := keep.filterMap fun c =>
    (df.find? fun col => col.1 == c).map fun col => (c, col.2)
  let rentCols := proj.filter fun col => col.1.startsWith "fmr_"
  if rentCols.isEmpty then some proj
  else
    let n := ((proj.map fun col => col.2.length).max?).getD 0
    some (proj ++
      [("avg_rent", (List.range n).map (rowMean (rentCols.map Prod.snd)))])

/-- process_hud_rent_data (process_data.py lines 132-191).  The raw input
is none when the raw file is missing, in which case the stage returns no
data.  The inner try block is modelled by an arbitrary selection function
sel returning none exactly when the block raises; on a raise the except
branch persists and returns the raw dataframe unmodified. -/
def process_hud_rent_data (sel : HudDf → Option HudDf)
    (raw : Option HudDf) : Option HudDf :=
  match raw with
  | none => none
  | some df =>
      match sel df with
      | some processed => some processed
      | none => some df

/-! Helper lemmas. -/

theorem pfloat_div_nan (x : PFloat) : PFloat.div x .nan = .nan := by
  cases x <;> rfl

theorem pfloat_sub_nan (x : PFloat) : PFloat.sub PFloat.nan x = .nan := by
  cases x <;> rfl

theorem pfloat_mul_nan (x : PFloat) : PFloat.mul PFloat.nan x = .nan := by
  cases x <;> rfl

/-! Claim C2. -/

/-- C2 counterexample: a survey row with a zero median household income
and a positive median gross rent gets a rent-to-income ratio of plus
infinity, not a null, so the claim that the ratio is null whenever the
income is null or zero fails on this row. -/
theorem rent_ratio_zero_income_counterexample :
    (processSurveyRow
        { metro_name := "X", median_household_income := some 0,
          total_population := none, median_gross_rent := some 1500 }
      ).rent_to_income_ratio = PFloat.inf ∧ PFloat.inf ≠ PFloat.nan := by
  constructor
  · simp only [processSurveyRow, toNumeric, PFloat.mul, PFloat.div]
    norm_num
  · intro h; cases h

/-- C2 amended: the rent-to-income ratio column equals, cell for cell,
the case analysis ratioSpec: null when the income is null, null when the
income is zero and the rent is null or zero, a signed infinity when the
income is zero and the rent is nonzero, and the exact quotient
(rent * 12) / income otherwise (null rent with nonzero income also
propagates to null). -/
theorem rent_to_income_ratio_spec (r : RawSurveyRow) :
    (processSurveyRow r).rent_to_income_ratio =
      ratioSpec r.median_household_income r.median_gross_rent := by
  rcases r with ⟨n, inc, pop, rent⟩
  cases inc with
  | none => cases rent <;> rfl
  | some a =>
      cases rent with
      | none => rfl
      | some b =>
          simp only [processSurveyRow, toNumeric, PFloat.mul, PFloat.div,
            ratioSpec]

/-! Claim C6. -/

/-- C6: the migration fetcher is deterministic: two runs whose seeded
noise streams agree on every draw (which is what an identical seed
guarantees for the numpy generator) produce identical edge tables, and
in particular identical num_migrants for every
(year, origin, destination) row. -/
theorem get_migration_data_deterministic (n₁ n₂ : ℕ → ℚ)
    (h : ∀ k, n₁ k = n₂ k) :
    get_migration_data n₁ = get_migration_data n₂ := by
  have hfun : n₁ = n₂ := funext h
  rw [hfun]

/-- C6 witness: the determinism theorem applied to the constant stream. -/
theorem get_migration_data_deterministic_witness :
    get_migration_data (fun _ => (1 : ℚ)) = get_migration_data (fun _ => (1 : ℚ)) :=
  get_migration_data_deterministic (fun _ => 1) (fun _ => 1) (fun _ => rfl)

/-! Claim C8. -/

/-- C8 counterexample: a run with only the expenditure file missing and a
run with only the metro survey file missing produce exactly the same
result and the same log line, so the output of the joiner cannot report
which file is missing (the code logs one fixed message). -/
theorem combine_pipeline_report_counterexample :
    combine_pipeline none (some []) (some [])
        = combine_pipeline (some []) none (some []) ∧
      (combine_pipeline none (some []) (some [])).1 = none := by
  exact ⟨rfl, rfl⟩

/-- C8 amended: if any of the three processed inputs is missing, the join
fails, produces no output table, and logs the fixed message that some
required processed files are missing, without identifying which one. -/
theorem combine_pipeline_missing_input (b : Option (List ℤ))
    (m : Option (List ProcSurveyRow)) (i : Option (List InflowRow))
    (h : b = none ∨ m = none ∨ i = none) :
    combine_pipeline b m i =
      (none, ["Some required processed data files are missing"]) := by
  cases b <;> cases m <;> cases i <;> simp_all [combine_pipeline]

/-- C8 witness: the amended theorem at a store missing the expenditure
file. -/
theorem combine_pipeline_missing_input_witness :
    combine_pipeline none (some []) (some []) =
      (none, ["Some required processed data files are missing"]) :=
  combine_pipeline_missing_input none (some []) (some []) (Or.inl rfl)

/-! Claim C9. -/

/-- C9: for every raw HUD dataframe, the stage never hard-fails: whatever
the guarded column-selection block does (sel is an arbitrary model of the
try block, returning none when it raises), the stage returns a table; and
whenever the selection block fails, the stage returns the raw dataframe
unmodified.  The concrete allow-list selection hudSelect itself never
fails on any schema. -/
theorem process_hud_fallback (sel : HudDf → Option HudDf) (df : HudDf) :
    (∃ out, process_hud_rent_data sel (some df) = some out) ∧
      (∃ p, hudSelect df = some p) ∧
      (sel df = none → process_hud_rent_data sel (some df) = some df) := by
  refine ⟨?_, ?_, ?_⟩
  · cases h : sel df with
    | none => exact ⟨df, by simp [process_hud_rent_data, h]⟩
    | some p => exact ⟨p, by simp [process_hud_rent_data, h]⟩
  · simp only [hudSelect]
    split
    · exact ⟨_, rfl⟩
    · exact ⟨_, rfl⟩
  · intro h
    simp [process_hud_rent_data, h]

/-- C9 witness: a selection block that fails on a one-column frame makes
the stage return that frame unchanged. -/
theorem process_hud_fallback_witness :
    process_hud_rent_data (fun _ => none)
        (some [("area_name", [PFloat.fin 1])]) =
      some [("area_name", [PFloat.fin 1])] :=
  (process_hud_fallback (fun _ => none) [("area_name", [PFloat.fin 1])]).2.2 rfl

/-! Claim C10. -/

/-- C10: if the raw expenditure table contains two records with the same
(category, year) key, the pivot raises inside pandas and the normalizer
returns no data (and hence writes no processed file). -/
theorem process_bls_duplicate_key (l : List SeriesRecord)
    (h : ∃ i j : Fin l.length, i ≠ j ∧
      (l.get i).category = (l.get j).category ∧
      (l.get i).year = (l.get j).year) :
    process_bls_expenditure_data (some l) = none := by
  obtain ⟨i, j, hij, hc, hy⟩ := h
  have hnd : ¬ (seriesKeys l).Nodup := by
    intro hnd
    have hi : (i : ℕ) < (seriesKeys l).length := by
      simp only [seriesKeys, List.length_map]; exact i.isLt
    have hj : (j : ℕ) < (seriesKeys l).length := by
      simp only [seriesKeys, List.length_map]; exact j.isLt
    have hkey : (seriesKeys l).get ⟨i, hi⟩ = (seriesKeys l).get ⟨j, hj⟩ := by
      simp only [seriesKeys, List.get_eq_getElem, List.getElem_map,
        Prod.mk.injEq]
      exact ⟨hc, hy⟩
    have hval : (i : ℕ) = (j : ℕ) := by
      have := (List.Nodup.getElem_inj_iff hnd).mp
        (by simpa [List.get_eq_getElem] using hkey)
      exact this
    exact hij (Fin.ext hval)
  simp only [process_bls_expenditure_data]
  rw [if_neg hnd]

/-- C10 witness: two Food records for 2020 make the normalizer return no
data. -/
theorem process_bls_duplicate_key_witness :
    process_bls_expenditure_data
        (some [{ category := "Food", year := 2020, value := 100 },
               { category := "Food", year := 2020, value := 110 }]) = none :=
  process_bls_duplicate_key _
    ⟨⟨0, by decide⟩, ⟨1, by decide⟩, by decide, rfl, rfl⟩

/-! Claim C7. -/

/-- C7: every generated migration edge carries a nonnegative migrant
count, for every noise stream: the final max against zero in the
generator guarantees it. -/
theorem get_migration_data_nonneg (normal : ℕ → ℚ) (e : MigrationEdge)
    (he : e ∈ get_migration_data normal) : 0 ≤ e.num_migrants := by
  simp only [get_migration_data, List.mem_flatMap, List.mem_map] at he
  obtain ⟨yi, _, a, _, b, _, rfl⟩ := he
  exact le_max_right _ _

/-- C7 witness: the nonnegativity theorem at the all-zero noise stream
and the first generated edge. -/
theorem get_migration_data_nonneg_witness :
    0 ≤ (MigrationEdge.mk 2018 "New York-Newark-Jersey City, NY-NJ-PA"
      "Austin-Round Rock-Georgetown, TX" 0).num_migrants := by
  refine get_migration_data_nonneg (fun _ => 0) _ ?_
  simp only [get_migration_data, List.mem_flatMap, List.mem_map]
  refine ⟨0, by decide, (0, "New York-Newark-Jersey City, NY-NJ-PA"),
    by decide, (0, "Austin-Round Rock-Georgetown, TX"), by decide, ?_⟩
  simp [intTrunc, MigrationEdge.mk.injEq]

/-! Claim C3.  Helper lemmas on the pct-change recursion. -/

theorem pctSeries_cons (prev x : PFloat) (xs : List PFloat) :
    pctSeries prev (x :: xs) =
      PFloat.mul (PFloat.sub
          (PFloat.div (if x = .nan then prev else x) prev) (.fin 1)) (.fin 100)
        :: pctSeries (if x = .nan then prev else x) xs := rfl

theorem ite_fin_nan (a : ℚ) (p : PFloat) :
    (if PFloat.fin a = PFloat.nan then p else PFloat.fin a) = PFloat.fin a :=
  if_neg (fun h => PFloat.noConfusion h)

theorem ite_nan_nan (p : PFloat) :
    (if PFloat.nan = PFloat.nan then p else PFloat.nan) = p := if_pos rfl

theorem pctSeries_first_nan (l : List PFloat) (h : 0 < l.length) :
    (pctChangeTimes100 l).getD 0 PFloat.nan = PFloat.nan := by
  cases l with
  | nil => simp at h
  | cons x xs =>
      simp only [pctChangeTimes100, pctSeries, List.getD_cons_zero]
      rw [pfloat_div_nan, pfloat_sub_nan, pfloat_mul_nan]

theorem pctSeries_formula (l : List PFloat) :
    ∀ (prev : PFloat) (i : ℕ) (a b : ℚ), a ≠ 0 →
      l.getD i PFloat.nan = .fin a → l.getD (i + 1) PFloat.nan = .fin b →
      (pctSeries prev l).getD (i + 1) PFloat.nan =
        .fin ((b / a - 1) * 100) := by
  induction l with
  | nil => intro prev i a b _ hi _; simp at hi
  | cons x xs ih =>
      intro prev i a b ha hi hnext
      cases i with
      | zero =>
          rw [List.getD_cons_zero] at hi
          rw [List.getD_cons_succ] at hnext
          subst hi
          cases xs with
          | nil => simp at hnext
          | cons y ys =>
              rw [List.getD_cons_zero] at hnext
              subst hnext
              rw [pctSeries_cons, List.getD_cons_succ, ite_fin_nan,
                pctSeries_cons, List.getD_cons_zero, ite_fin_nan]
              simp only [PFloat.div, PFloat.sub, PFloat.mul]
              rw [if_neg ha]
      | succ n =>
          rw [List.getD_cons_succ] at hi
          rw [List.getD_cons_succ] at hnext
          rw [pctSeries_cons, List.getD_cons_succ]
          exact ih _ n a b ha hi hnext

theorem pctSeries_pad_zero (l : List PFloat) :
    ∀ (prev : PFloat) (i : ℕ) (a : ℚ), a ≠ 0 →
      l.getD i PFloat.nan = .fin a → i + 1 < l.length →
      l.getD (i + 1) PFloat.nan = .nan →
      (pctSeries prev l).getD (i + 1) PFloat.nan = .fin 0 := by
  induction l with
  | nil => intro prev i a _ hi _ _; simp at hi
  | cons x xs ih =>
      intro prev i a ha hi hlen hnext
      cases i with
      | zero =>
          rw [List.getD_cons_zero] at hi
          rw [List.getD_cons_succ] at hnext
          subst hi
          cases xs with
          | nil => simp at hlen
          | cons y ys =>
              rw [List.getD_cons_zero] at hnext
              subst hnext
              rw [pctSeries_cons, List.getD_cons_succ, ite_fin_nan,
                pctSeries_cons, List.getD_cons_zero, ite_nan_nan]
              simp only [PFloat.div, PFloat.sub, PFloat.mul]
              rw [if_neg ha, div_self ha]
              norm_num
      | succ n =>
          rw [List.getD_cons_succ] at hi
          rw [List.getD_cons_succ] at hnext
          rw [pctSeries_cons, List.getD_cons_succ]
          exact ih _ n a ha hi (Nat.succ_lt_succ_iff.mp hlen) hnext

/-- C3 counterexample: in a processed expenditure table whose Food column
reads 100, null, 110 across three years, the percent-change cell on the
third row is 10 although the prior-year value is null: the pandas
pct_change pads nulls with the last earlier value, so the claim that a
null prior-year value yields a null percent change fails. -/
theorem pct_change_pad_counterexample :
    categoryColumn (pivot
        [{ category := "Food", year := 2020, value := 100 },
         { category := "Gas", year := 2021, value := 50 },
         { category := "Food", year := 2022, value := 110 }]) "Food"
      = [.fin 100, .nan, .fin 110] ∧
    (pctColumn (pivot
        [{ category := "Food", year := 2020, value := 100 },
         { category := "Gas", year := 2021, value := 50 },
         { category := "Food", year := 2022, value := 110 }]) "Food"
      ).getD 2 PFloat.nan = .fin 10 ∧
    PFloat.fin 10 ≠ PFloat.nan := by
  refine ⟨by decide, ?_, by intro h; cases h⟩
  have hcol : categoryColumn (pivot
      [{ category := "Food", year := 2020, value := 100 },
       { category := "Gas", year := 2021, value := 50 },
       { category := "Food", year := 2022, value := 110 }]) "Food"
      = [.fin 100, .nan, .fin 110] := by decide
  rw [pctColumn, hcol]
  show (pctSeries .nan [.fin 100, .nan, .fin 110]).getD 2 PFloat.nan = .fin 10
  rw [pctSeries_cons, List.getD_cons_succ, ite_fin_nan,
    pctSeries_cons, List.getD_cons_succ, ite_nan_nan,
    pctSeries_cons, List.getD_cons_zero, ite_fin_nan]
  simp only [PFloat.div, PFloat.sub, PFloat.mul]
  rw [if_neg (show (100 : ℚ) ≠ 0 by norm_num)]
  norm_num

/-- C3 amended: in the expenditure normalizer, for every category column,
the first percent-change cell is null; for every row i+1 the cell equals
(value at i+1 minus value at i) divided by value at i, times 100,
whenever the values at both i and i+1 are non-null and the value at i is
nonzero; and when the value at i+1 is null but the value at i is a
nonzero finite value, the cell is 0 rather than null, because pandas
pct_change forward-fills null values before differencing (a null
prior-year value is likewise replaced by the last earlier non-null
value, so it yields a null percent change only when no earlier value is
non-null). -/
theorem pct_change_column_spec (w : WideTable) (c : String) :
    (0 < (categoryColumn w c).length →
      (pctColumn w c).getD 0 PFloat.nan = PFloat.nan) ∧
    (∀ i a b, a ≠ 0 →
      (categoryColumn w c).getD i PFloat.nan = .fin a →
      (categoryColumn w c).getD (i + 1) PFloat.nan = .fin b →
      (pctColumn w c).getD (i + 1) PFloat.nan =
        .fin ((b - a) / a * 100)) ∧
    (∀ i a, a ≠ 0 →
      (categoryColumn w c).getD i PFloat.nan = .fin a →
      i + 1 < (categoryColumn w c).length →
      (categoryColumn w c).getD (i + 1) PFloat.nan = .nan →
      (pctColumn w c).getD (i + 1) PFloat.nan = .fin 0) := by
  refine ⟨fun h => pctSeries_first_nan _ h, fun i a b ha hi hnext => ?_,
    fun i a ha hi hlen hnext =>
      pctSeries_pad_zero (categoryColumn w c) _ i a ha hi hlen hnext⟩
  rw [pctColumn, pctChangeTimes100,
    pctSeries_formula (categoryColumn w c) _ i a b ha hi hnext]
  have harith : b / a - 1 = (b - a) / a := by
    field_simp
  rw [harith]

/-- C3 witness: the amended formula clause at a two-year Food table. -/
theorem pct_change_column_spec_witness :
    (pctColumn (pivot
        [{ category := "Food", year := 2020, value := 100 },
         { category := "Food", year := 2021, value := 110 }]) "Food"
      ).getD 1 PFloat.nan = .fin ((110 - 100) / 100 * 100) :=
  (pct_change_column_spec (pivot
      [{ category := "Food", year := 2020, value := 100 },
       { category := "Food", year := 2021, value := 110 }]) "Food").2.1
    0 100 110 (by norm_num) (by decide) (by decide)

/-! Claim C1.  Helper lemmas on the left-join block structure. -/

theorem leftJoinRow_countP_eq (inflow : List InflowRow) (y : ℤ)
    (x m : ProcSurveyRow) (hx : x = m) :
    (leftJoinRow inflow y x).countP (fun c => c.survey == m)
      = if (matchingInflow inflow y m).isEmpty then 1
        else (matchingInflow inflow y m).length := by
  subst hx
  rw [leftJoinRow]
  by_cases h : (matchingInflow inflow y x).isEmpty
  · simp [h, List.countP_cons]
  · simp only [h, if_false, Bool.false_eq_true]
    rw [List.countP_map]
    rw [List.countP_eq_length.mpr]
    intro r _
    simp

theorem leftJoinRow_countP_ne (inflow : List InflowRow) (y : ℤ)
    (x m : ProcSurveyRow) (hx : x ≠ m) :
    (leftJoinRow inflow y x).countP (fun c => c.survey == m) = 0 := by
  rw [leftJoinRow]
  by_cases h : (matchingInflow inflow y x).isEmpty
  · simp [h, List.countP_cons, hx]
  · simp only [h, if_false, Bool.false_eq_true]
    rw [List.countP_map]
    rw [List.countP_eq_zero.mpr]
    intro r _
    simp [hx]

theorem combine_countP (y : ℤ) (inflow : List InflowRow)
    (metros : List ProcSurveyRow) (m : ProcSurveyRow) :
    ((metros.flatMap (leftJoinRow inflow y)).countP (fun c => c.survey == m))
      = metros.count m *
        (if (matchingInflow inflow y m).isEmpty then 1
         else (matchingInflow inflow y m).length) := by
  induction metros with
  | nil => simp
  | cons x t ih =>
      rw [List.flatMap_cons, List.countP_append, ih]
      by_cases hx : x = m
      · rw [leftJoinRow_countP_eq inflow y x m hx, List.count_cons]
        simp only [hx, beq_self_eq_true, if_pos]
        ring
      · rw [leftJoinRow_countP_ne inflow y x m hx, List.count_cons]
        have hbeq : (x == m) = false := beq_eq_false_iff_ne.mpr hx
        rw [hbeq]
        simp

/-- C1: in the joiner output, each metro survey row m gives rise to
exactly one combined row per inflow row matching it on cleaned name and
stamped year, or exactly one combined row with total_inflow zero when no
inflow row matches; counting over the whole output, rows carrying m
appear metros.count m times the block size, so no survey row is dropped
and none is duplicated beyond its matches; moreover the zero-filled row,
and the row for each match with that match's total_inflow, are indeed
present in the output. -/
theorem combine_left_join_multiplicity (blsYears : List ℤ)
    (metros : List ProcSurveyRow) (inflow : List InflowRow)
    (m : ProcSurveyRow) (hm : m ∈ metros) :
    (((combine_data_for_analysis blsYears metros inflow).countP
        (fun c => c.survey == m))
      = metros.count m *
        (if (matchingInflow inflow (stampYear blsYears) m).isEmpty then 1
         else (matchingInflow inflow (stampYear blsYears) m).length)) ∧
    ((matchingInflow inflow (stampYear blsYears) m).isEmpty = true →
      ({ survey := m, year := stampYear blsYears, total_inflow := 0 } :
          CombinedRow) ∈ combine_data_for_analysis blsYears metros inflow) ∧
    (∀ r ∈ matchingInflow inflow (stampYear blsYears) m,
      ({ survey := m, year := stampYear blsYears,
         total_inflow := r.total_inflow } : CombinedRow)
        ∈ combine_data_for_analysis blsYears metros inflow) := by
  refine ⟨combine_countP (stampYear blsYears) inflow metros m, ?_, ?_⟩
  · intro hempty
    rw [combine_data_for_analysis]
    refine List.mem_flatMap.mpr ⟨m, hm, ?_⟩
    rw [leftJoinRow, hempty]
    simp
  · intro r hr
    rw [combine_data_for_analysis]
    refine List.mem_flatMap.mpr ⟨m, hm, ?_⟩
    rw [leftJoinRow]
    have hne : (matchingInflow inflow (stampYear blsYears) m).isEmpty = false := by
      cases h : (matchingInflow inflow (stampYear blsYears) m).isEmpty
      · rfl
      · rw [List.isEmpty_iff] at h
        rw [h] at hr
        cases hr
    rw [hne]
    simp only [Bool.false_eq_true, if_false]
    exact List.mem_map.mpr ⟨r, hr, rfl⟩

/-- C1 witness: one Austin survey row joined against one matching inflow
row yields the combined row carrying that inflow total. -/
theorem combine_left_join_multiplicity_witness :
    ({ survey := { metro_name := "Austin-Round Rock-Georgetown, TX",
                   median_household_income := .fin 60000,
                   total_population := .fin 2000000,
                   median_gross_rent := .fin 1500,
                   rent_to_income_ratio := .nan },
       year := 2021, total_inflow := 500 } : CombinedRow)
      ∈ combine_data_for_analysis [2020, 2021]
          [{ metro_name := "Austin-Round Rock-Georgetown, TX",
             median_household_income := .fin 60000,
             total_population := .fin 2000000,
             median_gross_rent := .fin 1500,
             rent_to_income_ratio := .nan }]
          [{ destination_metro := "Austin-Round Rock-Georgetown, TX",
             year := 2021, total_inflow := 500 }] :=
  (combine_left_join_multiplicity [2020, 2021]
      [{ metro_name := "Austin-Round Rock-Georgetown, TX",
         median_household_income := .fin 60000,
         total_population := .fin 2000000,
         median_gross_rent := .fin 1500,
         rent_to_income_ratio := .nan }]
      [{ destination_metro := "Austin-Round Rock-Georgetown, TX",
         year := 2021, total_inflow := 500 }]
      { metro_name := "Austin-Round Rock-Georgetown, TX",
        median_household_income := .fin 60000,
        total_population := .fin 2000000,
        median_gross_rent := .fin 1500,
        rent_to_income_ratio := .nan }
      (by decide)).2.2
    { destination_metro := "Austin-Round Rock-Georgetown, TX",
      year := 2021, total_inflow := 500 }
    (by decide)

/-! Claim C4.  Helper lemmas on sorting, keys and cells. -/

theorem mem_insertLE (a y : ℤ) (l : List ℤ) :
    a ∈ insertLE y l ↔ a = y ∨ a ∈ l := by
  induction l with
  | nil => simp [insertLE]
  | cons x xs ih =>
      rw [insertLE]
      by_cases h : y ≤ x
      · simp [h]
      · simp only [h, if_false, List.mem_cons, ih]
        tauto

theorem mem_sortYears (a : ℤ) (l : List ℤ) :
    a ∈ sortYears l ↔ a ∈ l := by
  induction l with
  | nil => simp [sortYears]
  | cons x xs ih =>
      show a ∈ insertLE x (sortYears xs) ↔ _
      rw [mem_insertLE, ih, List.mem_cons]

theorem seriesKeys_inj (l : List SeriesRecord)
    (h : (seriesKeys l).Nodup) :
    ∀ a ∈ l, ∀ b ∈ l, a.category = b.category → a.year = b.year → a = b := by
  intro a ha b hb hc hy
  exact List.inj_on_of_nodup_map h ha hb (by simp [hc, hy])

theorem pivotCell_eq_some (l : List SeriesRecord)
    (h : (seriesKeys l).Nodup) (c : String) (y : ℤ) (v : ℚ) :
    pivotCell l c y = some v ↔
      ({ category := c, year := y, value := v } : SeriesRecord) ∈ l := by
  constructor
  · intro hcell
    rw [pivotCell] at hcell
    obtain ⟨r, hfind, hval⟩ := Option.map_eq_some'.mp hcell
    have hmem : r ∈ l := List.mem_of_find?_eq_some hfind
    have hpred := List.find?_some hfind
    rw [Bool.and_eq_true, beq_iff_eq, beq_iff_eq] at hpred
    obtain ⟨hcat, hyear⟩ := hpred
    have : r = { category := c, year := y, value := v } := by
      rcases r with ⟨rc, ry, rv⟩
      simp only at hcat hyear hval
      rw [hcat, hyear, hval]
    rw [← this]
    exact hmem
  · intro hmem
    rw [pivotCell]
    have hsome : (l.find? fun r => r.category == c && r.year == y).isSome := by
      rw [List.find?_isSome]
      exact ⟨_, hmem, by simp⟩
    obtain ⟨r, hfind⟩ := Option.isSome_iff_exists.mp hsome
    have hmem2 : r ∈ l := List.mem_of_find?_eq_some hfind
    have hpred := List.find?_some hfind
    rw [Bool.and_eq_true, beq_iff_eq, beq_iff_eq] at hpred
    have : r = { category := c, year := y, value := v } :=
      seriesKeys_inj l h r hmem2 _ hmem hpred.1 hpred.2
    rw [hfind, this]
    rfl

/-- C4 counterexample: for the two-record table with keys (A, 2020) and
(B, 2021), melting the pivoted table emits the null-valued cell
(A, 2021, null), which corresponds to no original record, so the
pivot-then-melt roundtrip does not recover the original triple set
exactly. -/
theorem pivot_melt_counterexample :
    ("A", (2021 : ℤ), (none : Option ℚ)) ∈
        melt (pivot [{ category := "A", year := 2020, value := 1 },
                     { category := "B", year := 2021, value := 2 }]) ∧
      ("A", (2021 : ℤ), (none : Option ℚ)) ∉
        [{ category := "A", year := 2020, value := 1 },
         { category := "B", year := 2021, value := 2 }].map
          (fun r : SeriesRecord => (r.category, r.year, some r.value)) := by
  constructor
  · decide
  · decide

/-- C4 amended: for every valid Series Record table (no duplicate
(category, year) key), pivoting and melting back recovers the original
records exactly among the non-null cells: a triple (c, y, some v) occurs
in the melt exactly when the record (c, y, v) is in the input.  The
exact-set claim holds only after the additional null cells, one for each
(category, year) combination absent from the input grid, are dropped. -/
theorem pivot_melt_roundtrip (l : List SeriesRecord)
    (h : (seriesKeys l).Nodup) (c : String) (y : ℤ) (v : ℚ) :
    (c, y, some v) ∈ melt (pivot l) ↔
      ({ category := c, year := y, value := v } : SeriesRecord) ∈ l := by
  constructor
  · intro hm
    simp only [melt, pivot, List.mem_flatMap, List.mem_map] at hm
    obtain ⟨c2, _, y2, _, heq⟩ := hm
    obtain ⟨hc2, hy2, hcell⟩ : c2 = c ∧ y2 = y ∧ pivotCell l c2 y2 = some v := by
      have h1 := congrArg Prod.fst heq
      have h2 := congrArg (fun t => t.snd.fst) heq
      have h3 := congrArg (fun t => t.snd.snd) heq
      exact ⟨h1, h2, h3⟩
    rw [hc2, hy2] at hcell
    exact (pivotCell_eq_some l h c y v).mp hcell
  · intro hmem
    simp only [melt, pivot, List.mem_flatMap, List.mem_map]
    refine ⟨c, ?_, y, ?_, ?_⟩
    · rw [List.mem_dedup]
      exact List.mem_map.mpr ⟨_, hmem, rfl⟩
    · rw [mem_sortYears, List.mem_dedup]
      exact List.mem_map.mpr ⟨_, hmem, rfl⟩
    · rw [(pivotCell_eq_some l h c y v).mpr hmem]

/-- C4 witness: the amended roundtrip at the same two-record table,
recovering the record (A, 2020, 1) from the melt. -/
theorem pivot_melt_roundtrip_witness :
    ("A", (2020 : ℤ), (some 1 : Option ℚ)) ∈
      melt (pivot [{ category := "A", year := 2020, value := 1 },
                   { category := "B", year := 2021, value := 2 }]) :=
  (pivot_melt_roundtrip
      [{ category := "A", year := 2020, value := 1 },
       { category := "B", year := 2021, value := 2 }]
      (by decide) "A" 2020 1).mpr (by decide)

/-! Claim C5.  Partition-of-sums machinery for the groupby views. -/

theorem list_sum_map_add {α : Type} (K : List α) (g₁ g₂ : α → ℤ) :
    (K.map fun k => g₁ k + g₂ k).sum = (K.map g₁).sum + (K.map g₂).sum := by
  induction K with
  | nil => simp
  | cons a t ih =>
      simp only [List.map_cons, List.sum_cons, ih]
      ring

theorem list_sum_if_single {α : Type} [DecidableEq α] (K : List α)
    (hnd : K.Nodup) (c : α) (hc : c ∈ K) (v : ℤ) :
    (K.map fun k => if k = c then v else 0).sum = v := by
  induction K with
  | nil => cases hc
  | cons a t ih =>
      rw [List.map_cons, List.sum_cons]
      rw [List.nodup_cons] at hnd
      rcases List.mem_cons.mp hc with hca | hct
      · rw [if_pos hca.symm]
        have hz : (t.map fun k => if k = c then v else 0).sum = 0 := by
          apply List.sum_eq_zero
          intro x hx
          obtain ⟨k, hk, rfl⟩ := List.mem_map.mp hx
          refine if_neg (fun he => hnd.1 ?_)
          rw [← hca, ← he]
          exact hk
        rw [hz, add_zero]
      · have hne : a ≠ c := by
          intro he
          exact hnd.1 (by rw [he]; exact hct)
        rw [if_neg hne, zero_add]
        exact ih hnd.2 hct

theorem list_partition_sum {α κ : Type} [DecidableEq κ] [BEq κ] [LawfulBEq κ]
    (key : α → κ) (w : α → ℤ) :
    ∀ (l : List α) (K : List κ), K.Nodup → (∀ x ∈ l, key x ∈ K) →
      (K.map fun k => ((l.filter fun x => key x == k).map w).sum).sum
        = (l.map w).sum := by
  intro l
  induction l with
  | nil =>
      intro K _ _
      simp only [List.filter_nil, List.map_nil, List.sum_nil]
      apply List.sum_eq_zero
      intro x hx
      obtain ⟨k, _, rfl⟩ := List.mem_map.mp hx
      rfl
  | cons a t ih =>
      intro K hnd hcov
      have hstep : ∀ k : κ, (((a :: t).filter fun x => key x == k).map w).sum
          = (if k = key a then w a else 0)
            + ((t.filter fun x => key x == k).map w).sum := by
        intro k
        by_cases h : key a = k
        · have hb : (key a == k) = true := beq_iff_eq.mpr h
          rw [List.filter_cons, hb]
          simp only [if_true]
          rw [List.map_cons, List.sum_cons, if_pos h.symm]
        · have hb : (key a == k) = false := beq_eq_false_iff_ne.mpr h
          rw [List.filter_cons, hb]
          simp only [Bool.false_eq_true, if_false]
          rw [if_neg (fun he => h he.symm), zero_add]
      have hmaps : (K.map fun k =>
            (((a :: t).filter fun x => key x == k).map w).sum)
          = K.map fun k => (if k = key a then w a else 0)
              + ((t.filter fun x => key x == k).map w).sum :=
        List.map_eq_map_iff.mpr (fun k _ => hstep k)
      rw [hmaps, list_sum_map_add,
        list_sum_if_single K hnd (key a) (hcov a (List.mem_cons_self a t)),
        ih K hnd (fun x hx => hcov x (List.mem_cons_of_mem a hx)),
        List.map_cons, List.sum_cons]

theorem inflow_year_sum (l : List MigrationEdge) (y : ℤ) :
    (((process_migration_inflow l).filter fun r => r.year == y).map
        (fun r => r.total_inflow)).sum
      = ((l.filter fun e => e.year == y).map (fun e => e.num_migrants)).sum := by
  have hpart := list_partition_sum
    (fun e : MigrationEdge => (e.destination_metro, e.year))
    (fun e => e.num_migrants)
    (l.filter fun e => e.year == y)
    ((l.map fun e => (e.destination_metro, e.year)).dedup.filter
      fun k => k.2 == y)
    (List.Nodup.filter _ (List.nodup_dedup _))
    (by
      intro x hx
      rw [List.mem_filter] at hx
      rw [List.mem_filter]
      exact ⟨List.mem_dedup.mpr (List.mem_map.mpr ⟨x, hx.1, rfl⟩), hx.2⟩)
  unfold process_migration_inflow
  rw [List.filter_map, List.map_map]
  have hgoal : ((l.map fun e => (e.destination_metro, e.year)).dedup.filter
        ((fun r : InflowRow => r.year == y) ∘ fun k =>
          { destination_metro := k.1, year := k.2,
            total_inflow := ((l.filter fun e =>
                e.destination_metro == k.1 && e.year == k.2).map
              (·.num_migrants)).sum }))
      = ((l.map fun e => (e.destination_metro, e.year)).dedup.filter
          fun k => k.2 == y) := rfl
  rw [hgoal, ← hpart]
  apply congrArg List.sum
  apply List.map_eq_map_iff.mpr
  intro k hk
  rw [List.mem_filter] at hk
  have hk2 : k.2 = y := by
    have := hk.2
    rwa [beq_iff_eq] at this
  show ((l.filter fun e =>
      e.destination_metro == k.1 && e.year == k.2).map
    (fun e => e.num_migrants)).sum = _
  apply congrArg List.sum
  apply congrArg
  rw [List.filter_filter]
  apply List.filter_congr
  intro e _
  rcases k with ⟨k1, k2⟩
  simp only at hk2
  subst hk2
  by_cases h2 : e.year = k2
  · subst h2
    by_cases h1 : e.destination_metro = k1
    · subst h1
      simp
    · have hb1 : (e.destination_metro == k1) = false :=
        beq_eq_false_iff_ne.mpr h1
      have hbp : ((e.destination_metro, e.year) == (k1, e.year)) = false :=
        beq_eq_false_iff_ne.mpr (fun hpe => h1 (congrArg Prod.fst hpe))
      rw [hb1, hbp]
      try simp
  · have hb2 : (e.year == k2) = false := beq_eq_false_iff_ne.mpr h2
    rw [hb2]
    try simp

theorem outflow_year_sum (l : List MigrationEdge) (y : ℤ) :
    (((process_migration_outflow l).filter fun r => r.year == y).map
        (fun r => r.total_outflow)).sum
      = ((l.filter fun e => e.year == y).map (fun e => e.num_migrants)).sum := by
  have hpart := list_partition_sum
    (fun e : MigrationEdge => (e.origin_metro, e.year))
    (fun e => e.num_migrants)
    (l.filter fun e => e.year == y)
    ((l.map fun e => (e.origin_metro, e.year)).dedup.filter
      fun k => k.2 == y)
    (List.Nodup.filter _ (List.nodup_dedup _))
    (by
      intro x hx
      rw [List.mem_filter] at hx
      rw [List.mem_filter]
      exact ⟨List.mem_dedup.mpr (List.mem_map.mpr ⟨x, hx.1, rfl⟩), hx.2⟩)
  unfold process_migration_outflow
  rw [List.filter_map, List.map_map]
  have hgoal : ((l.map fun e => (e.origin_metro, e.year)).dedup.filter
        ((fun r : OutflowRow => r.year == y) ∘ fun k =>
          { origin_metro := k.1, year := k.2,
            total_outflow := ((l.filter fun e =>
                e.origin_metro == k.1 && e.year == k.2).map
              (·.num_migrants)).sum }))
      = ((l.map fun e => (e.origin_metro, e.year)).dedup.filter
          fun k => k.2 == y) := rfl
  rw [hgoal, ← hpart]
  apply congrArg List.sum
  apply List.map_eq_map_iff.mpr
  intro k hk
  rw [List.mem_filter] at hk
  have hk2 : k.2 = y := by
    have := hk.2
    rwa [beq_iff_eq] at this
  show ((l.filter fun e =>
      e.origin_metro == k.1 && e.year == k.2).map
    (fun e => e.num_migrants)).sum = _
  apply congrArg List.sum
  apply congrArg
  rw [List.filter_filter]
  apply List.filter_congr
  intro e _
  rcases k with ⟨k1, k2⟩
  simp only at hk2
  subst hk2
  by_cases h2 : e.year = k2
  · subst h2
    by_cases h1 : e.origin_metro = k1
    · subst h1
      simp
    · have hb1 : (e.origin_metro == k1) = false :=
        beq_eq_false_iff_ne.mpr h1
      have hbp : ((e.origin_metro, e.year) == (k1, e.year)) = false :=
        beq_eq_false_iff_ne.mpr (fun hpe => h1 (congrArg Prod.fst hpe))
      rw [hb1, hbp]
      try simp
  · have hb2 : (e.year == k2) = false := beq_eq_false_iff_ne.mpr h2
    rw [hb2]
    try simp

/-- C5: for every migration edge table and every year, the total of the
total_inflow column over that year in the inflow view equals the total
of the total_outflow column over that year in the outflow view: both
aggregations conserve the total migrant count of the year. -/
theorem migration_flow_conservation (l : List MigrationEdge) (y : ℤ) :
    (((process_migration_inflow l).filter fun r => r.year == y).map
        (fun r => r.total_inflow)).sum
      = (((process_migration_outflow l).filter fun r => r.year == y).map
        (fun r => r.total_outflow)).sum := by
  rw [inflow_year_sum, outflow_year_sum]

end IncomeExpense
